import Mathlib

/-!
Shallow embedding of the zypys `zadrix` record-processing core
(`src/zypys/zadrix/recproc.py` and `src/zypys/zadrix/recproc_new.py`).

Filenames and paths are modelled as `String`; a directory listing (the set
of files that exist) is a `List String`; the mutable contents of the target
directory are a function `String → FileState`.  The external transcoder is
a black box: invoking it on an absent output produces that output
(completely on success, partially when interrupted).  Python's `re`
patterns used by the source are compiled here into equivalent decidable
Boolean matchers on `List Char`; the equivalences are argued in the
comments next to each matcher.
-/

/-! ### Filename classification

Source patterns (identical in both modules):
  RE_RECORD / RE_RECORDING = `^[0-9]+_day[0-9]+_.*\.(mp4|mov|mkv)$`
  RE_INDEX                 = `^([0-9]+).*$`
  RE_TIMELAPSE             = `^[0-9]+[a-z]+_.*\.(mp4|mov|mkv)`
All uses go through `re.fullmatch` (respectively anchored `re.search` for
`RE_INDEX`), so they are whole-string matches.  In Python `.` matches any
character except a newline, and with `fullmatch` a trailing `$` adds
nothing.  A bracket expression `[0-9]+` followed by a character that is not
a digit matches exactly the maximal leading digit run, so backtracking
never produces other splits; the same holds for `[a-z]+` followed by `_`.
-/

/-- `[a-z]` of the source patterns (ASCII lowercase only). -/
def isLowerAZ (c : Char) : Bool := 'a' ≤ c && c ≤ 'z'

/-- `.*` in Python matches any characters except `'\n'`. -/
def noNewline (cs : List Char) : Bool := cs.all (fun c => c != '\n')

/-- `\.(mp4|mov|mkv)` at the end of the string: the last four characters
are one of the three literal suffixes. -/
def endsWithExt (cs : List Char) : Bool :=
  let t := cs.drop (cs.length - 4)
  t == ".mp4".data || t == ".mov".data || t == ".mkv".data

/-- `.*\.(mp4|mov|mkv)` consuming the rest of the string. -/
def tailOk (cs : List Char) : Bool := noNewline cs && endsWithExt cs

/-- What follows the leading digit run in `RE_RECORD`:
`_day[0-9]+_.*\.(mp4|mov|mkv)`. -/
def afterIndexRecord (r1 : List Char) : Bool :=
  (r1.take 4 == "_day".data) &&
  (let r2 := r1.drop 4
   let ds2 := r2.takeWhile Char.isDigit
   !ds2.isEmpty && ((r2.drop ds2.length).take 1 == ['_'])
     && tailOk ((r2.drop ds2.length).drop 1))

/-- What follows the leading digit run in `RE_TIMELAPSE`:
`[a-z]+_.*\.(mp4|mov|mkv)`. -/
def afterIndexTimelapse (r1 : List Char) : Bool :=
  let ls := r1.takeWhile isLowerAZ
  !ls.isEmpty && ((r1.drop ls.length).take 1 == ['_'])
    && tailOk ((r1.drop ls.length).drop 1)

/-- `RE_RECORD.fullmatch` on a character list. -/
def reRecord (cs : List Char) : Bool :=
  let ds := cs.takeWhile Char.isDigit
  !ds.isEmpty && afterIndexRecord (cs.drop ds.length)

/-- `RE_TIMELAPSE.fullmatch` on a character list. -/
def reTimelapse (cs : List Char) : Bool :=
  let ds := cs.takeWhile Char.isDigit
  !ds.isEmpty && afterIndexTimelapse (cs.drop ds.length)

/-- `RE_RECORDING.fullmatch(name) is not None` (recproc_new.py line 31,
recproc.py line 23). -/
def RE_RECORDING (s : String) : Bool := reRecord s.data

/-- `RE_TIMELAPSE.fullmatch(name) is not None` (recproc_new.py line 37,
recproc.py line 29). -/
def RE_TIMELAPSE (s : String) : Bool := reTimelapse s.data

/-- Value of a decimal digit run, as in Python `int`. -/
def digitsToNat (ds : List Char) : Nat :=
  ds.foldl (fun a c => a * 10 + (c.toNat - '0'.toNat)) 0

/-- Whether `RE_INDEX.search(name)` matches: the name starts with a digit,
and past the leading digit run `.*$` can consume the remainder, which
(without `re.MULTILINE`) allows a `'\n'` only as the very last character. -/
def reIndexMatches (cs : List Char) : Bool :=
  let ds := cs.takeWhile Char.isDigit
  !ds.isEmpty && noNewline ((cs.drop ds.length).dropLast)

/-- `get_index` (recproc_new.py lines 50–58): the integer value of the
leading digit run, or `0` when `RE_INDEX` does not match.  (The docstring
announces `-1` but the code returns `0`.)  It inspects only the name,
never the filesystem. -/
def get_index (s : String) : Int :=
  if reIndexMatches s.data then (digitsToNat (s.data.takeWhile Char.isDigit) : Int) else 0

/-- Length of the leading digit run, `len(index_str)` in recproc.py
line 66. -/
def digitRunLen (s : String) : Nat := (s.data.takeWhile Char.isDigit).length

/-! ### Filesystem-aware classifiers (recproc_new.py) -/

/-- `Path.is_file()`: membership in the listing of existing files. -/
def is_file (files : List String) (p : String) : Bool := files.contains p

/-- `is_recording` (recproc_new.py lines 40–42). -/
def is_recording (files : List String) (p : String) : Bool :=
  is_file files p && RE_RECORDING p

/-- `is_timelapse` (recproc_new.py lines 45–47). -/
def is_timelapse (files : List String) (p : String) : Bool :=
  is_file files p && RE_TIMELAPSE p

/-! ### Directory scanning and sorting

`get_recordings` (recproc_new.py lines 61–68) filters the directory
listing through `is_recording` and sorts by `get_index` with Python's
`sorted`, which is a stable sort keyed only on the index.
`RecordProcessor.__init__` (recproc.py lines 76–84) does the same with
`sorted(zipped, key=lambda pair: pair[2])`.  A stable sort by a key is
uniquely determined by the input order, and `List.insertionSort` with the
reflexive relation `idxLe` (insert before the first element that is not
strictly smaller) is stable, so it is the same function. -/

/-- The sort key comparison: `get_index a ≤ get_index b`. -/
def idxLe (a b : String) : Prop := get_index a ≤ get_index b

instance : DecidableRel idxLe :=
  fun a b => inferInstanceAs (Decidable (get_index a ≤ get_index b))

instance : IsTotal String idxLe := ⟨fun _ _ => Int.le_total _ _⟩

instance : IsTrans String idxLe := ⟨fun _ _ _ h1 h2 => Int.le_trans h1 h2⟩

/-- `get_recordings` (recproc_new.py lines 61–68): the directory listing
(the names of the existing plain files) filtered by the Recording pattern
and stably sorted by index. -/
def get_recordings (listing : List String) : List String :=
  List.insertionSort idxLe (listing.filter RE_RECORDING)

/-! ### Directive parsing

`RecordProcessor.extract` (recproc.py lines 170–175, 199–202) reads
`extract.txt` with `csv.reader(f, delimiter=' ')` and then takes
`index = int(row[0])`, `start = row[1]`, `end = row[2]`,
`title = row[3]`.  On a field that contains no quote character
(`U+0022`, `quoteChar` below), `csv.reader` with a space delimiter
splits at every single space; a field that begins with the quote
character is instead parsed as a quoted field (spaces kept, quotes
stripped) — that behaviour is NOT modelled here, so the split model is
faithful only where the fields involved carry no quote character, which
the theorems below assume explicitly and which holds for every concrete
input in this file.  A blank line yields the empty row.  Python raises
`IndexError` for a missing field and `ValueError` for a non-integer
index field, in the evaluation order of the source (`row[0]` first, then
`int`, then the remaining fields); neither is caught inside
`extract`. -/

/-- The Python exceptions that can escape the modelled code paths. -/
inductive PyError where
  | fileNotFound
  | valueError
  | indexError
deriving DecidableEq

/-- The csv quote character `U+0022`, written via its code point. -/
def quoteChar : Char := Char.ofNat 34

/-- Split a character list at every space: the `csv.reader` field split
restricted to lines none of whose fields begins with `quoteChar` (a
quote elsewhere in a field is a literal character for `csv.reader` too,
so only quote-initial fields fall outside this model). -/
def splitOnSpaceL : List Char → List (List Char)
  | [] => [[]]
  | c :: cs =>
    match splitOnSpaceL cs with
    | [] => [[c]]
    | f :: r => if c = ' ' then [] :: f :: r else (c :: f) :: r

/-- Field split of one line, as `String`s (same quoting scope as
`splitOnSpaceL`). -/
def splitOnSpace (s : String) : List String :=
  (splitOnSpaceL s.data).map (fun cs => String.mk cs)

/-- One `csv.reader` row: a blank line gives the empty row, any other
line is split at every space (same quoting scope as `splitOnSpaceL`;
every Lean statement that quantifies over line contents assumes the
relevant fields are quote-free). -/
def csvRow (line : String) : List String :=
  if line = "" then [] else splitOnSpace line

/-- Python `int(...)` on a plain optionally-minus-signed decimal literal;
`none` models `ValueError`.  (The exotic inputs `int` also accepts —
surrounding whitespace, `+`, underscores between digits — do not occur in
any input considered here.) -/
def parsePyInt (s : String) : Option Int :=
  if !s.data.isEmpty && s.data.all Char.isDigit then
    some (digitsToNat s.data)
  else if (s.data.take 1 == ['-']) && !(s.data.drop 1).isEmpty
      && (s.data.drop 1).all Char.isDigit then
    some (-(digitsToNat (s.data.drop 1) : Int))
  else none

/-- One parsed directive.  The source's field `end` is a Lean keyword and
is called `stop` here. -/
structure Directive where
  index : Int
  start : String
  stop : String
  title : String
deriving DecidableEq

/-- Field extraction of recproc.py lines 199–202, in evaluation order:
`data[i][0]` (IndexError on an empty row), `int(...)` (ValueError), then
`data[i][1]`, `data[i][2]`, `data[i][3]` (IndexError when fewer than four
fields). -/
def parseDirectiveRow (row : List String) : Except PyError Directive :=
  match row with
  | [] => .error .indexError
  | r0 :: rest =>
    match parsePyInt r0 with
    | none => .error .valueError
    | some i =>
      match rest with
      | r1 :: r2 :: r3 :: _ => .ok ⟨i, r1, r2, r3⟩
      | _ => .error .indexError

/-- Parse one directive line: csv field split, then field extraction. -/
def parseDirectiveLine (line : String) : Except PyError Directive :=
  parseDirectiveRow (csvRow line)

/-! ### RecordProcessor initialisation (recproc.py lines 47–93)

`__init__` scans the source directory, keeping for each file whose name
fullmatches `RE_RECORD` its name, its parsed index
(`int(RE_INDEX.search(name).group(1))`, i.e. the value of the leading
digit run) and the digit-run length, computes
`index_maxlen = max(indexlens)` — which raises `ValueError: max() arg is
an empty sequence` when no file matched, uncaught because the
surrounding `except` only handles `FileNotFoundError` — and then stably
sorts the parallel lists by index.  Paths are modelled by names. -/

/-- The scanned state of a `RecordProcessor`: `self.fnames`,
`self.indices` (parallel, sorted by index) and `self.index_maxlen`. -/
structure ScanResult where
  fnames : List String
  indices : List Int
  index_maxlen : Nat
deriving DecidableEq

/-- `RecordProcessor.__init__` restricted to the source-directory scan:
either the `ValueError` from `max([])` or the scanned state. -/
def initScan (listing : List String) : Except PyError ScanResult :=
  match ((listing.filter RE_RECORDING).map digitRunLen).max? with
  | none => .error .valueError
  | some w =>
    .ok ⟨List.insertionSort idxLe (listing.filter RE_RECORDING),
      (List.insertionSort idxLe (listing.filter RE_RECORDING)).map get_index, w⟩

/-! ### Extract job construction (recproc.py lines 208–228) -/

/-- `'%0<w>d' % n` for a non-negative value: zero-pad the decimal digits
to a minimum width `w`. -/
def padNat (w : Nat) (n : Nat) : String :=
  String.mk (List.replicate (w - (Nat.repr n).length) '0') ++ Nat.repr n

/-- `'%0<w>d' % i` for any integer (Python puts padding zeros after the
sign; only non-negative values are reachable in the pipeline, since a
directive index is only formatted after it was found among the scanned
indices, which are parsed digit runs). -/
def padZeros (w : Nat) (i : Int) : String :=
  if i < 0 then "-" ++ padNat (w - 1) i.natAbs else padNat w i.natAbs

/-- `new_fname = 'clips_%s_%s.mov' % (fullindex_str, title)` with
`fullindex_str = ('%0' + str(index_maxlen) + 'd') % index`
(recproc.py lines 219–221). -/
def extractJobName (w : Nat) (i : Int) (title : String) : String :=
  "clips_" ++ padZeros w i ++ "_" ++ title ++ ".mov"

/-- One extraction work item: source file, output name in the target
directory, and the two literal timestamp strings passed to the
transcoder command. -/
structure ExtractJob where
  input : String
  output : String
  start : String
  stop : String
deriving DecidableEq

/-- Directive resolution and naming, recproc.py lines 208–228:
`record_subscript = self.indices.index(index)` takes the first position
of the directive's index in the scanned indices; the `ValueError` when
it is absent is caught and the directive skipped (`none`).  On success
the job uses `self.files[record_subscript]` and the `clips_` name. -/
def extractJobOf (scan : ScanResult) (d : Directive) : Option ExtractJob :=
  match scan.indices.findIdx? (fun j => j == d.index) with
  | none => none
  | some pos =>
    some ⟨scan.fnames.getD pos "", extractJobName scan.index_maxlen d.index d.title,
      d.start, d.stop⟩

/-! ### The batch execution loops

The target directory is a mutable map from output name to file state.
`compressFrom`/`extractFrom` model runs whose interrupts, if any, arrive
while the loop blocks on the external transcoder: `intr i = true` means
the invocation started at loop iteration `i` is interrupted; such an
invocation has written a partial output file, which the `except` handler
removes (`os.remove(new_file)`) before the loop `break`s.  A completed
invocation leaves a complete output.  A failed transcoder exit is not
checked by the source (the loop continues), so success and failure are
not distinguished here.  The program's `try` block is wider than the
invocation; the full interrupt scope — in particular an interrupt
landing before `new_file` is reassigned, where the handler removes the
previous iteration's output — is modelled separately by
`compressTry`/`extractTry` below.  The claims stated over
`compressFrom`/`extractFrom` use interrupt-free runs (`intr` constantly
false), on which the two models coincide. -/

/-- State of one name in the target directory. -/
inductive FileState where
  | absent
  | halfDone
  | complete
deriving DecidableEq

/-- The contents of the target directory. -/
def FS := String → FileState

/-- Write one name's state. -/
def setF (fs : FS) (n : String) (st : FileState) : FS :=
  fun m => if m = n then st else fs m

/-- Result of one run of the compression loop. -/
structure CRun where
  fs : FS
  invoked : List String
  completed : List String
  interrupted : Bool

/-- The loop body of `RecordProcessor.compress` (recproc.py lines
125–151), iterating over the sorted recording names with loop index `i`:
break when `i >= maxnum`; skip when `os.path.isfile(new_file)`
(lines 137–140); otherwise invoke the transcoder — on interrupt the
partially written output is removed and the loop breaks (lines 147–151),
otherwise the output is complete and the loop continues.  `invoked`
records the outputs whose transcoder invocation started, `completed`
those that finished.  Interrupts are observed here only during the
invocation; `compressTry` below additionally models the interrupt window
before line 137 reassigns `new_file`.  Every claim stated over this
model passes an interrupt-free schedule. -/
def compressFrom (fs : FS) (recs : List String) (i maxnum : Nat)
    (intr : Nat → Bool) : CRun :=
  match recs with
  | [] => ⟨fs, [], [], false⟩
  | fname :: rest =>
    if maxnum ≤ i then ⟨fs, [], [], false⟩
    else if fs fname ≠ FileState.absent then
      compressFrom fs rest (i + 1) maxnum intr
    else if intr i then
      ⟨setF (setF fs fname FileState.halfDone) fname FileState.absent, [fname], [], true⟩
    else
      let r := compressFrom (setF fs fname FileState.complete) rest (i + 1) maxnum intr
      ⟨r.fs, fname :: r.invoked, fname :: r.completed, r.interrupted⟩

/-- `RecordProcessor.compress` (recproc.py lines 118–151):
`maxnum == 0` means the whole list (`maxnum = self.num`). -/
def compress (fs : FS) (recs : List String) (maxnum : Nat)
    (intr : Nat → Bool) : CRun :=
  compressFrom fs recs 0 (if maxnum = 0 then recs.length else maxnum) intr

/-- The compression work a full, uninterrupted run performs: the
recordings whose transcoder invocation is started, read off
`RecordProcessor.compress` (the skip at recproc.py lines 137–140 is the
only thing that prevents an invocation). -/
def buildCompressJobs (recs : List String) (fs : FS) : List String :=
  (compress fs recs 0 (fun _ => false)).invoked

/-- Result of one run of the extraction phase.  A raised exception
(`err`) aborts the loop but leaves the target directory (`fs`) and the
already-performed work in place, exactly as an uncaught Python exception
would. -/
structure ERun where
  fs : FS
  invoked : List String
  completed : List String
  interrupted : Bool
  err : Option PyError

/-- The loop body of `RecordProcessor.extract` (recproc.py lines
189–238), iterating over the csv rows with loop index `i`: break when
`i > maxnum` (note: `>`, unlike the compression loop's `>=`); parse the
row's fields (an uncaught `ValueError`/`IndexError` aborts the whole
extraction); skip the row when the directive does not resolve or the
output already exists; otherwise invoke the transcoder, with the same
interrupt handling as the compression loop (lines 234–238).  As with
`compressFrom`, interrupts are observed only during the invocation;
`extractTry` below additionally models the window before line 222
reassigns `new_file`.  Every claim stated over this model passes an
interrupt-free schedule. -/
def extractFrom (fs : FS) (scan : ScanResult) (rows : List (List String))
    (i maxnum : Nat) (intr : Nat → Bool) : ERun :=
  match rows with
  | [] => ⟨fs, [], [], false, none⟩
  | row :: rest =>
    if maxnum < i then ⟨fs, [], [], false, none⟩
    else
      match parseDirectiveRow row with
      | .error e => ⟨fs, [], [], false, some e⟩
      | .ok d =>
        match extractJobOf scan d with
        | none => extractFrom fs scan rest (i + 1) maxnum intr
        | some job =>
          if fs job.output ≠ FileState.absent then
            extractFrom fs scan rest (i + 1) maxnum intr
          else if intr i then
            ⟨setF (setF fs job.output FileState.halfDone) job.output FileState.absent,
              [job.output], [], true, none⟩
          else
            let r := extractFrom (setF fs job.output FileState.complete) scan rest
              (i + 1) maxnum intr
            ⟨r.fs, job.output :: r.invoked, job.output :: r.completed,
              r.interrupted, r.err⟩

/-- `RecordProcessor.extract` (recproc.py lines 153–238):
`FileNotFoundError` when `extract.txt` is absent from the source
directory (`srcTxt = none`), otherwise copy `extract.txt` into the
target directory if not already present (lines 179–185), then run the
loop; `maxnum == 0` means `maxnum = len(data)`. -/
def extractRun (srcTxt : Option (List String)) (scan : ScanResult) (fs : FS)
    (maxnum : Nat) (intr : Nat → Bool) : ERun :=
  match srcTxt with
  | none => ⟨fs, [], [], false, some .fileNotFound⟩
  | some lines =>
    extractFrom
      (if fs "extract.txt" = FileState.absent then
        setF fs "extract.txt" FileState.complete
      else fs)
      scan (lines.map csvRow) 0
      (if maxnum = 0 then lines.length else maxnum) intr

/-- `copy_timelapses` (recproc.py lines 240–247): copy every timelapse
name not already present in the target directory. -/
def copyTimelapses (srcListing : List String) (fs : FS) : FS :=
  (srcListing.filter RE_TIMELAPSE).foldl
    (fun g t => if g t = FileState.absent then setF g t FileState.complete else g) fs

/-- `main` (recproc.py lines 250–276): scan (its `ValueError`/
`FileNotFoundError` propagate), `copy_timelapses`, `compress`, then
`extract` inside `try: ... except FileNotFoundError: pass` — only the
missing-directive-file error is absorbed; any other extraction error
propagates. -/
def mainRun (srcListing : List String) (srcTxt : Option (List String))
    (targetFs : FS) (number : Nat) (intrC intrE : Nat → Bool) :
    Except PyError FS :=
  match initScan srcListing with
  | .error e => .error e
  | .ok scan =>
    match (extractRun srcTxt scan
        (compress (copyTimelapses srcListing targetFs) scan.fnames number intrC).fs
        number intrE).err with
    | some PyError.fileNotFound =>
      .ok (extractRun srcTxt scan
        (compress (copyTimelapses srcListing targetFs) scan.fnames number intrC).fs
        number intrE).fs
    | some e => .error e
    | none =>
      .ok (extractRun srcTxt scan
        (compress (copyTimelapses srcListing targetFs) scan.fnames number intrC).fs
        number intrE).fs

/-! ### The full interrupt scope of the try blocks

The `try` block of each loop also covers the bookkeeping at the start of
the iteration — recproc.py lines 132–136 in `compress` (timestamp,
logging) and lines 198–221 in `extract` (timestamp, field parsing,
directive resolution, name construction) — which runs before `new_file`
is reassigned at line 137 (resp. line 222).  The handler (lines 149–150,
resp. 236–237) is `if 'new_file' in locals(): os.remove(new_file)`; when
the `KeyboardInterrupt` lands in that window, `new_file` still holds the
previous iteration's output path, so the handler deletes the previous
iteration's file — even the completed output of the previous job.
`compressTry`/`extractTry` extend the loop models with this window: `pv`
is the binding of `new_file` on entry to the iteration (`none` before
the first assignment, when the handler removes nothing), and the
schedule tells where within iteration `i` an interrupt lands, if
anywhere.  (Within one run `pv` always names an existing file — a
completed or skipped output — so the handler's `os.remove` succeeds.) -/

/-- Where within the `try` block of loop iteration `i` a
`KeyboardInterrupt` lands: `pre` — during the bookkeeping before
`new_file` is reassigned; `inv` — while blocking on the transcoder
invocation. -/
inductive IntrAt where
  | pre
  | inv
deriving DecidableEq

/-- `RecordProcessor.compress` loop under the full try-block interrupt
scope (recproc.py lines 125–151), threading `pv`, the current binding of
`new_file`.  A skipped iteration (existing target) still reassigns
`new_file` before its `continue`. -/
def compressTry (fs : FS) (recs : List String) (pv : Option String)
    (i maxnum : Nat) (intr : Nat → Option IntrAt) : CRun :=
  match recs with
  | [] => ⟨fs, [], [], false⟩
  | fname :: rest =>
    if maxnum ≤ i then ⟨fs, [], [], false⟩
    else
      match intr i with
      | some IntrAt.pre =>
        match pv with
        | none => ⟨fs, [], [], true⟩
        | some p => ⟨setF fs p FileState.absent, [], [], true⟩
      | _ =>
        if fs fname ≠ FileState.absent then
          compressTry fs rest (some fname) (i + 1) maxnum intr
        else if intr i = some IntrAt.inv then
          ⟨setF (setF fs fname FileState.halfDone) fname FileState.absent,
            [fname], [], true⟩
        else
          let r := compressTry (setF fs fname FileState.complete) rest (some fname)
            (i + 1) maxnum intr
          ⟨r.fs, fname :: r.invoked, fname :: r.completed, r.interrupted⟩

/-- `RecordProcessor.compress` under the full try-block interrupt scope:
`new_file` is unbound on entry and `maxnum == 0` means the whole list. -/
def compressFull (fs : FS) (recs : List String) (maxnum : Nat)
    (intr : Nat → Option IntrAt) : CRun :=
  compressTry fs recs none 0 (if maxnum = 0 then recs.length else maxnum) intr

/-- `RecordProcessor.extract` loop under the full try-block interrupt
scope (recproc.py lines 189–238).  A `pre` interrupt lands during lines
198–221, before `new_file` is reassigned at line 222; a row whose
directive does not resolve leaves `new_file` untouched (its `continue`
at line 214 precedes the assignment), while a skipped existing output
has already reassigned it. -/
def extractTry (fs : FS) (scan : ScanResult) (rows : List (List String))
    (pv : Option String) (i maxnum : Nat) (intr : Nat → Option IntrAt) : ERun :=
  match rows with
  | [] => ⟨fs, [], [], false, none⟩
  | row :: rest =>
    if maxnum < i then ⟨fs, [], [], false, none⟩
    else
      match intr i with
      | some IntrAt.pre =>
        match pv with
        | none => ⟨fs, [], [], true, none⟩
        | some p => ⟨setF fs p FileState.absent, [], [], true, none⟩
      | _ =>
        match parseDirectiveRow row with
        | .error e => ⟨fs, [], [], false, some e⟩
        | .ok d =>
          match extractJobOf scan d with
          | none => extractTry fs scan rest pv (i + 1) maxnum intr
          | some job =>
            if fs job.output ≠ FileState.absent then
              extractTry fs scan rest (some job.output) (i + 1) maxnum intr
            else if intr i = some IntrAt.inv then
              ⟨setF (setF fs job.output FileState.halfDone) job.output
                  FileState.absent, [job.output], [], true, none⟩
            else
              let r := extractTry (setF fs job.output FileState.complete) scan rest
                (some job.output) (i + 1) maxnum intr
              ⟨r.fs, job.output :: r.invoked, job.output :: r.completed,
                r.interrupted, r.err⟩

/-- The extraction loop under the full try-block interrupt scope:
`new_file` is unbound on entry and `maxnum == 0` means `len(data)`. -/
def extractFull (fs : FS) (scan : ScanResult) (rows : List (List String))
    (maxnum : Nat) (intr : Nat → Option IntrAt) : ERun :=
  extractTry fs scan rows none 0 (if maxnum = 0 then rows.length else maxnum) intr

/-! ### Theorems: classifier claims -/

theorem afterIndexRecord_head {r1 : List Char} (h : afterIndexRecord r1 = true) :
    afterIndexTimelapse r1 = false := by
  unfold afterIndexRecord at h
  unfold afterIndexTimelapse
  cases r1 with
  | nil => simp at h
  | cons c t =>
    have hc : c = '_' := by
      have h4 : (c :: t).take 4 == "_day".data := by
        exact (Bool.and_eq_true ..).mp h |>.1
      have h4' : (c :: t).take 4 = "_day".data := by
        exact beq_iff_eq.mp h4
      simp [List.take, String.data] at h4'
      exact h4'.1
    subst hc
    have hl : isLowerAZ '_' = false := by decide
    simp [List.takeWhile, hl]

/-- C5: for every filename, the Recording pattern and the Timelapse
pattern are mutually exclusive: no string fullmatches both
`^[0-9]+_day[0-9]+_.*\.(mp4|mov|mkv)$` and
`^[0-9]+[a-z]+_.*\.(mp4|mov|mkv)`. -/
theorem c5_patterns_mutually_exclusive (s : String) :
    (RE_RECORDING s && RE_TIMELAPSE s) = false := by
  unfold RE_RECORDING RE_TIMELAPSE reRecord reTimelapse
  cases hR : afterIndexRecord (s.data.drop (s.data.takeWhile Char.isDigit).length) with
  | false => simp [hR]
  | true => simp [hR, afterIndexRecord_head hR]

theorem filter_orderedInsert_idx (k : Int) (a : String) (l : List String) :
    (List.orderedInsert idxLe a l).filter (fun f => get_index f == k)
      = if get_index a == k then a :: l.filter (fun f => get_index f == k)
        else l.filter (fun f => get_index f == k) := by
  induction l with
  | nil =>
    cases pa : (get_index a == k) <;> simp [List.orderedInsert, List.filter, pa]
  | cons b t ih =>
    by_cases hab : idxLe a b
    · rw [List.orderedInsert_of_le idxLe t hab]
      cases pa : (get_index a == k) <;> simp [List.filter_cons, pa]
    · have hOI : List.orderedInsert idxLe a (b :: t)
          = b :: List.orderedInsert idxLe a t := by
        simp [List.orderedInsert, hab]
      rw [hOI]
      cases pa : (get_index a == k) with
      | true =>
        have hba : get_index b < get_index a := by
          exact lt_of_not_le (fun hc => hab hc)
        have pb : (get_index b == k) = false := by
          have hak : get_index a = k := beq_iff_eq.mp pa
          have hne : get_index b ≠ k := by omega
          simpa using hne
        simp [List.filter_cons, pa, pb, ih]
      | false =>
        cases pb : (get_index b == k) <;> simp [List.filter_cons, pa, pb, ih]

theorem filter_insertionSort_idx (k : Int) (l : List String) :
    (List.insertionSort idxLe l).filter (fun f => get_index f == k)
      = l.filter (fun f => get_index f == k) := by
  induction l with
  | nil => rfl
  | cons a t ih =>
    show (List.orderedInsert idxLe a (List.insertionSort idxLe t)).filter _ = _
    rw [filter_orderedInsert_idx, ih]
    by_cases pa : get_index a == k <;> simp [List.filter_cons, pa]

/-- C6 (amended): the scan returns the recordings sorted ascending by
index, and the sort is stable: among recordings with the same index, the
directory enumeration order is preserved (the elements with any fixed
index `k` appear exactly as in the filtered listing). -/
theorem c6_scan_sorted_stable (listing : List String) :
    List.Pairwise (fun a b => get_index a ≤ get_index b) (get_recordings listing)
    ∧ ∀ k : Int, (get_recordings listing).filter (fun f => get_index f == k)
        = (listing.filter RE_RECORDING).filter (fun f => get_index f == k) := by
  constructor
  · exact List.sorted_insertionSort idxLe _
  · intro k
    exact filter_insertionSort_idx k _

/-- C6 counterexample: two recordings with equal index 2 are returned in
filesystem enumeration order, not in filename order, so the scan result is
not independent of the enumeration order and ties are not broken by
filename. -/
theorem c6_counterexample :
    get_recordings ["2_day2_bb.mp4", "2_day1_aa.mp4"]
        = ["2_day2_bb.mp4", "2_day1_aa.mp4"]
    ∧ get_recordings ["2_day1_aa.mp4", "2_day2_bb.mp4"]
        = ["2_day1_aa.mp4", "2_day2_bb.mp4"]
    ∧ get_index "2_day2_bb.mp4" = get_index "2_day1_aa.mp4"
    ∧ ("2_day2_bb.mp4" : String) ≠ "2_day1_aa.mp4" := by decide

/-- C7 (amended): classifying a path that does not exist never throws (all
three queries are total functions), `is_recording` and `is_timelapse`
return `false`, and `get_index` ignores existence entirely: it returns the
value of the leading digit run of the name (`0` when there is none), which
is always non-negative — not a negative/undefined result. -/
theorem c7_missing_path_classifies (files : List String) (p : String)
    (h : files.contains p = false) :
    is_recording files p = false ∧ is_timelapse files p = false
      ∧ 0 ≤ get_index p := by
  refine ⟨?_, ?_, ?_⟩
  · unfold is_recording is_file
    rw [h, Bool.false_and]
  · unfold is_timelapse is_file
    rw [h, Bool.false_and]
  · unfold get_index
    split
    · exact Int.natCast_nonneg _
    · exact le_refl 0

theorem c7_missing_path_classifies_witness :
    is_recording [] "033_day111_nonexistent.mkv" = false
    ∧ is_timelapse [] "033_day111_nonexistent.mkv" = false
    ∧ 0 ≤ get_index "033_day111_nonexistent.mkv" :=
  c7_missing_path_classifies [] "033_day111_nonexistent.mkv" (by decide)

/-- C7 counterexample: for the non-existent path
`033_day111_nonexistent.mkv` (over the empty filesystem) the two Boolean
classifiers do return `false`, but the index query returns the
well-defined, non-negative value `33` parsed from the name — not a
negative/undefined result as the claim states. -/
theorem c7_counterexample :
    is_recording [] "033_day111_nonexistent.mkv" = false
    ∧ is_timelapse [] "033_day111_nonexistent.mkv" = false
    ∧ get_index "033_day111_nonexistent.mkv" = 33
    ∧ ¬ get_index "033_day111_nonexistent.mkv" < 0 := by decide

theorem splitOnSpaceL_ne_nil (cs : List Char) : splitOnSpaceL cs ≠ [] := by
  cases cs with
  | nil => simp [splitOnSpaceL]
  | cons c cs =>
    unfold splitOnSpaceL
    cases h : splitOnSpaceL cs with
    | nil => simp
    | cons f r => by_cases hc : c = ' ' <;> simp [hc]

theorem splitOnSpaceL_append (a rest : List Char) (h : ' ' ∉ a) :
    splitOnSpaceL (a ++ ' ' :: rest) = a :: splitOnSpaceL rest := by
  induction a with
  | nil =>
    show splitOnSpaceL (' ' :: rest) = [] :: splitOnSpaceL rest
    conv_lhs => rw [splitOnSpaceL]
    cases hr : splitOnSpaceL rest with
    | nil => exact absurd hr (splitOnSpaceL_ne_nil rest)
    | cons f r => simp
  | cons c a ih =>
    have hc : c ≠ ' ' := fun hc => h (hc ▸ List.mem_cons_self c a)
    have ha : ' ' ∉ a := fun hm => h (List.mem_cons_of_mem c hm)
    show splitOnSpaceL (c :: (a ++ ' ' :: rest)) = (c :: a) :: splitOnSpaceL rest
    conv_lhs => rw [splitOnSpaceL]
    rw [ih ha]
    simp [hc]

/-- C8 (amended): the reader is `csv.reader` with a single-space
delimiter; on a directive line whose first four fields carry no quote
character it splits the line at every single space and takes the fourth
field as the title, so an unquoted title containing spaces is truncated
at its first space and the remainder of the line is ignored.  For a line
`index start end title-head rest` whose index field is a digit run and
whose start/end/title-head fields are space-free and quote-free, the
parsed title is the fourth field only — not the remainder of the line.
(A title field beginning with the quote character would be parsed quoted
by `csv.reader`, spaces preserved; the hypotheses exclude it.) -/
theorem c8_title_truncated (i s e t u : String)
    (hi1 : i.data ≠ []) (hi2 : i.data.all Char.isDigit = true)
    (hs : ' ' ∉ s.data) (he : ' ' ∉ e.data) (ht : ' ' ∉ t.data)
    (_hqs : quoteChar ∉ s.data) (_hqe : quoteChar ∉ e.data)
    (_hqt : quoteChar ∉ t.data) :
    parseDirectiveLine (i ++ " " ++ s ++ " " ++ e ++ " " ++ t ++ " " ++ u)
      = Except.ok ⟨(digitsToNat i.data : Int), s, e, t⟩ := by
  have hiSpace : ' ' ∉ i.data := by
    intro hm
    have hd := List.all_eq_true.mp hi2 _ hm
    simp at hd
  have Ldata : (i ++ " " ++ s ++ " " ++ e ++ " " ++ t ++ " " ++ u).data
      = i.data ++ ' ' :: (s.data ++ ' ' :: (e.data ++ ' ' :: (t.data ++ ' ' :: u.data))) := by
    simp [String.data_append]
  have hne : (i ++ " " ++ s ++ " " ++ e ++ " " ++ t ++ " " ++ u) ≠ "" := by
    intro h0
    have h1 := congrArg String.data h0
    rw [Ldata] at h1
    simp at h1
  have mkd : ∀ x : String, String.mk x.data = x := fun _ => rfl
  have hie : i.data.isEmpty = false := by
    cases hd : i.data with
    | nil => exact absurd hd hi1
    | cons c cs => rfl
  unfold parseDirectiveLine csvRow
  rw [if_neg hne]
  unfold splitOnSpace
  rw [Ldata, splitOnSpaceL_append _ _ hiSpace, splitOnSpaceL_append _ _ hs,
    splitOnSpaceL_append _ _ he, splitOnSpaceL_append _ _ ht]
  simp only [List.map, mkd]
  unfold parseDirectiveRow parsePyInt
  simp [hie, hi2]

theorem c8_title_truncated_witness :
    parseDirectiveLine ("21" ++ " " ++ "00:00:00" ++ " " ++ "00:00:01"
        ++ " " ++ "第一" ++ " " ++ "秒")
      = Except.ok ⟨(digitsToNat "21".data : Int), "00:00:00", "00:00:01", "第一"⟩ :=
  c8_title_truncated "21" "00:00:00" "00:00:01" "第一" "秒"
    (by decide) (by decide) (by decide) (by decide) (by decide)
    (by decide) (by decide) (by decide)

/-- C8 counterexample: the (quote-free) directive line
`21 00:00:00 00:00:01 第一 秒` carries the title `第一 秒` under the
claim's reading (the entire remainder of the line), but the parser
returns the title `第一`: an unquoted title is truncated at its first
space, so the parsed title does not equal the full remainder. -/
theorem c8_counterexample :
    parseDirectiveLine "21 00:00:00 00:00:01 第一 秒"
      = Except.ok ⟨21, "00:00:00", "00:00:01", "第一"⟩
    ∧ ("第一" : String) ≠ "第一 秒" :=
  ⟨rfl, by decide⟩

/-- C10: constructing the processor over an existing source directory
with no file matching the Recording pattern raises (the `ValueError`
from `max(indexlens)` on the empty sequence escapes `__init__`), and a
scan completes exactly when the directory holds at least one recording. -/
theorem c10_empty_scan_raises (listing : List String) :
    initScan listing = Except.error PyError.valueError
      ↔ listing.filter RE_RECORDING = [] := by
  unfold initScan
  cases hf : listing.filter RE_RECORDING with
  | nil => simp [List.max?]
  | cons a l => simp [List.max?]

theorem c10_empty_scan_raises_witness :
    initScan ["notes.txt", "022a_tl.mp4"] = Except.error PyError.valueError :=
  (c10_empty_scan_raises ["notes.txt", "022a_tl.mp4"]).mpr (by decide)

/-- C4 (amended): for every directive that resolves to a scanned
recording, the emitted extract job's output filename equals `clips_`
(not `clip_`) followed by the directive's index zero-padded to the
maximum index digit-run width observed across all scanned recordings,
then `_`, then the directive's title, then the fixed extension `.mov`;
and the job's start/end equal the directive's literal timestamp
strings. -/
theorem c4_extract_naming (listing : List String) (scan : ScanResult)
    (d : Directive) (job : ExtractJob)
    (hs : initScan listing = Except.ok scan)
    (hj : extractJobOf scan d = some job) :
    job.output = "clips_"
        ++ padZeros (((listing.filter RE_RECORDING).map digitRunLen).max?.getD 0) d.index
        ++ "_" ++ d.title ++ ".mov"
    ∧ job.start = d.start ∧ job.stop = d.stop := by
  have hw : scan.index_maxlen
      = ((listing.filter RE_RECORDING).map digitRunLen).max?.getD 0 := by
    unfold initScan at hs
    cases hm : ((listing.filter RE_RECORDING).map digitRunLen).max? with
    | none => rw [hm] at hs; exact absurd hs (by simp)
    | some w =>
      rw [hm] at hs
      injection hs with hsc
      rw [← hsc]
      rfl
  unfold extractJobOf at hj
  cases hp : scan.indices.findIdx? (fun j => j == d.index) with
  | none => rw [hp] at hj; exact absurd hj (by simp)
  | some pos =>
    rw [hp] at hj
    injection hj with hjob
    rw [← hjob]
    refine ⟨?_, rfl, rfl⟩
    show extractJobName scan.index_maxlen d.index d.title = _
    rw [hw]
    rfl

theorem c4_extract_naming_witness :
    (⟨"021_day1234_测试录屏.mkv", "clips_021_第一秒片段.mov",
        "00:00:00", "00:00:01"⟩ : ExtractJob).output
      = "clips_"
        ++ padZeros (((["021_day1234_测试录屏.mkv"].filter RE_RECORDING).map
            digitRunLen).max?.getD 0)
          (⟨21, "00:00:00", "00:00:01", "第一秒片段"⟩ : Directive).index
        ++ "_" ++ (⟨21, "00:00:00", "00:00:01", "第一秒片段"⟩ : Directive).title ++ ".mov"
    ∧ (⟨"021_day1234_测试录屏.mkv", "clips_021_第一秒片段.mov",
        "00:00:00", "00:00:01"⟩ : ExtractJob).start
      = (⟨21, "00:00:00", "00:00:01", "第一秒片段"⟩ : Directive).start
    ∧ (⟨"021_day1234_测试录屏.mkv", "clips_021_第一秒片段.mov",
        "00:00:00", "00:00:01"⟩ : ExtractJob).stop
      = (⟨21, "00:00:00", "00:00:01", "第一秒片段"⟩ : Directive).stop :=
  c4_extract_naming ["021_day1234_测试录屏.mkv"]
    ⟨["021_day1234_测试录屏.mkv"], [21], 3⟩
    ⟨21, "00:00:00", "00:00:01", "第一秒片段"⟩
    ⟨"021_day1234_测试录屏.mkv", "clips_021_第一秒片段.mov", "00:00:00", "00:00:01"⟩
    rfl (by decide)

/-- C4 counterexample: the spec's own example — directive index 21 with
title `第一秒片段` against the scanned recording
`021_day1234_测试录屏.mkv` (padding width 3) — produces the output name
`clips_021_第一秒片段.mov`, which differs from the claimed
`clip_021_第一秒片段` + extension (the prefix is `clips_`, the canonical
clip extension of the code is `.mov`). -/
theorem c4_counterexample :
    (extractJobOf ⟨["021_day1234_测试录屏.mkv"], [21], 3⟩
        ⟨21, "00:00:00", "00:00:01", "第一秒片段"⟩).map ExtractJob.output
      = some "clips_021_第一秒片段.mov"
    ∧ initScan ["021_day1234_测试录屏.mkv"]
      = Except.ok ⟨["021_day1234_测试录屏.mkv"], [21], 3⟩
    ∧ ("clips_021_第一秒片段.mov" : String) ≠ "clip_021_第一秒片段.mov" :=
  ⟨by decide, rfl, by decide⟩

theorem setF_same (fs : FS) (n : String) (st : FileState) : setF fs n st n = st := by
  simp [setF]

theorem setF_other (fs : FS) (n : String) (st : FileState) (m : String)
    (h : m ≠ n) : setF fs n st m = fs m := by
  simp [setF, h]

theorem compressFrom_keeps_nonabsent (recs : List String) :
    ∀ (fs : FS) (i m : Nat) (intr : Nat → Bool) (n : String),
      fs n ≠ FileState.absent →
      (compressFrom fs recs i m intr).fs n ≠ FileState.absent := by
  induction recs with
  | nil => intro fs i m intr n h; exact h
  | cons fname rest ih =>
    intro fs i m intr n h
    unfold compressFrom
    by_cases hb : m ≤ i
    · rw [if_pos hb]; exact h
    · rw [if_neg hb]
      by_cases hskip : fs fname ≠ FileState.absent
      · rw [if_pos hskip]; exact ih fs (i + 1) m intr n h
      · rw [if_neg hskip]
        have hne : n ≠ fname := by
          intro he
          rw [he] at h
          exact h (by simpa using hskip)
        cases hintr : intr i with
        | true =>
          simp only [hintr, if_true]
          show setF (setF fs fname FileState.halfDone) fname FileState.absent n ≠ _
          rw [setF_other _ _ _ _ hne, setF_other _ _ _ _ hne]
          exact h
        | false =>
          simp only [hintr, Bool.false_eq_true, if_false]
          show (compressFrom (setF fs fname FileState.complete) rest (i + 1) m intr).fs n
              ≠ FileState.absent
          apply ih
          by_cases he : n = fname
          · rw [he, setF_same]; simp
          · rw [setF_other _ _ _ _ he]; exact h

theorem compressFrom_not_invoked (recs : List String) :
    ∀ (fs : FS) (i m : Nat) (intr : Nat → Bool) (n : String),
      fs n ≠ FileState.absent →
      n ∉ (compressFrom fs recs i m intr).invoked := by
  induction recs with
  | nil => intro fs i m intr n h; simp [compressFrom]
  | cons fname rest ih =>
    intro fs i m intr n h
    unfold compressFrom
    by_cases hb : m ≤ i
    · rw [if_pos hb]; simp
    · rw [if_neg hb]
      by_cases hskip : fs fname ≠ FileState.absent
      · rw [if_pos hskip]; exact ih fs (i + 1) m intr n h
      · rw [if_neg hskip]
        have hne : n ≠ fname := by
          intro he
          rw [he] at h
          exact h (by simpa using hskip)
        cases hintr : intr i with
        | true =>
          simp only [hintr, if_true]
          simpa using hne
        | false =>
          simp only [hintr, Bool.false_eq_true, if_false]
          show n ∉ fname :: (compressFrom (setF fs fname FileState.complete) rest
              (i + 1) m intr).invoked
          intro hmem
          rcases List.mem_cons.mp hmem with he | htail
          · exact hne he
          · refine absurd htail (ih (setF fs fname FileState.complete) (i + 1) m intr n ?_)
            by_cases he : n = fname
            · exact absurd he hne
            · rw [setF_other _ _ _ _ he]; exact h

theorem compressFrom_all_nonabsent_invoked_nil (recs : List String) :
    ∀ (fs : FS) (i m : Nat) (intr : Nat → Bool),
      (∀ f ∈ recs, fs f ≠ FileState.absent) →
      (compressFrom fs recs i m intr).invoked = [] := by
  induction recs with
  | nil => intro fs i m intr _; rfl
  | cons fname rest ih =>
    intro fs i m intr h
    unfold compressFrom
    by_cases hb : m ≤ i
    · rw [if_pos hb]
    · rw [if_neg hb]
      have hskip : fs fname ≠ FileState.absent := h fname (List.mem_cons_self ..)
      rw [if_pos hskip]
      exact ih fs (i + 1) m intr (fun f hf => h f (List.mem_cons_of_mem _ hf))

theorem compressFrom_coverage (recs : List String) :
    ∀ (fs : FS) (i m : Nat), i + recs.length ≤ m →
      ∀ f ∈ recs,
        (compressFrom fs recs i m (fun _ => false)).fs f ≠ FileState.absent := by
  induction recs with
  | nil => intro fs i m _ f hf; exact absurd hf (List.not_mem_nil f)
  | cons fname rest ih =>
    intro fs i m hm f hf
    have hb : ¬ m ≤ i := by
      simp [List.length_cons] at hm
      omega
    unfold compressFrom
    rw [if_neg hb]
    by_cases hskip : fs fname ≠ FileState.absent
    · rw [if_pos hskip]
      rcases List.mem_cons.mp hf with he | htail
      · subst he
        exact compressFrom_keeps_nonabsent rest fs (i + 1) m _ f hskip
      · exact ih fs (i + 1) m (by simp [List.length_cons] at hm; omega) f htail
    · rw [if_neg hskip]
      simp only [Bool.false_eq_true, if_false]
      show (compressFrom (setF fs fname FileState.complete) rest (i + 1) m _).fs f
          ≠ FileState.absent
      rcases List.mem_cons.mp hf with he | htail
      · subst he
        exact compressFrom_keeps_nonabsent rest _ (i + 1) m _ f
          (by rw [setF_same]; simp)
      · exact ih (setF fs fname FileState.complete) (i + 1) m
          (by simp [List.length_cons] at hm; omega) f htail

/-- C1: a recording whose output already exists in the target directory
produces no compression work, and re-running the compression build
against the target directory left by a completed (uninterrupted,
uncapped) run yields an empty job list. -/
theorem c1_compress_skip_idempotent (recs : List String) (fs : FS) :
    (∀ f ∈ recs, fs f ≠ FileState.absent → f ∉ buildCompressJobs recs fs)
    ∧ buildCompressJobs recs ((compress fs recs 0 (fun _ => false)).fs) = [] := by
  constructor
  · intro f _ hne
    show f ∉ (compressFrom fs recs 0 _ (fun _ => false)).invoked
    exact compressFrom_not_invoked recs fs 0 _ (fun _ => false) f hne
  · show (compressFrom _ recs 0 _ (fun _ => false)).invoked = []
    apply compressFrom_all_nonabsent_invoked_nil
    intro f hf
    show (compressFrom fs recs 0 (if 0 = 0 then recs.length else 0) (fun _ => false)).fs f
        ≠ FileState.absent
    exact compressFrom_coverage recs fs 0 _ (by simp) f hf

theorem c1_compress_skip_idempotent_witness :
    "1_day1_a.mp4" ∉ buildCompressJobs ["1_day1_a.mp4"]
        (fun n => if n = "1_day1_a.mp4" then FileState.complete else FileState.absent)
    ∧ buildCompressJobs ["1_day1_a.mp4"]
        ((compress (fun _ => FileState.absent) ["1_day1_a.mp4"] 0 (fun _ => false)).fs)
      = [] :=
  ⟨(c1_compress_skip_idempotent ["1_day1_a.mp4"]
      (fun n => if n = "1_day1_a.mp4" then FileState.complete else FileState.absent)).1
      "1_day1_a.mp4" (by decide) (by decide),
    (c1_compress_skip_idempotent ["1_day1_a.mp4"] (fun _ => FileState.absent)).2⟩


/-- C3 evidence at the failing input: with three eligible items and
`maxnum = 1`, the compression loop (`if i >= maxnum: break`) attempts
exactly one job, but the extraction loop (`if i > maxnum: break`,
recproc.py line 192) attempts two jobs — `maxnum + 1`, not
`min(maxnum, jobs)` as the claim and the compression loop have it; with
`maxnum = 0` both loops process the whole list. -/
theorem c3_maxcount_evidence :
    (compress (fun _ => FileState.absent)
        ["1_day1_a.mp4", "2_day1_b.mp4", "3_day1_c.mp4"] 1
        (fun _ => false)).invoked.length = 1
    ∧ (compress (fun _ => FileState.absent)
        ["1_day1_a.mp4", "2_day1_b.mp4", "3_day1_c.mp4"] 0
        (fun _ => false)).invoked.length = 3
    ∧ (extractRun
        (some ["1 00:00:00 00:00:01 a", "2 00:00:00 00:00:01 b",
          "3 00:00:00 00:00:01 c"])
        ⟨["1_day1_a.mp4", "2_day1_b.mp4", "3_day1_c.mp4"], [1, 2, 3], 1⟩
        (fun _ => FileState.absent) 1 (fun _ => false)).invoked.length = 2
    ∧ (extractRun
        (some ["1 00:00:00 00:00:01 a", "2 00:00:00 00:00:01 b",
          "3 00:00:00 00:00:01 c"])
        ⟨["1_day1_a.mp4", "2_day1_b.mp4", "3_day1_c.mp4"], [1, 2, 3], 1⟩
        (fun _ => FileState.absent) 0 (fun _ => false)).invoked.length = 3
    ∧ initScan ["1_day1_a.mp4", "2_day1_b.mp4", "3_day1_c.mp4"]
      = Except.ok ⟨["1_day1_a.mp4", "2_day1_b.mp4", "3_day1_c.mp4"], [1, 2, 3], 1⟩ :=
  ⟨by decide, by decide, by decide, by decide, rfl⟩

/-- C9: when the source directory scans successfully but `extract.txt`
is absent, the extraction phase fails with the file-not-found condition,
`main` absorbs it (`except FileNotFoundError: pass`), the run returns
normally, and the final target directory is exactly the one produced by
the completed compression phase (which runs before extraction). -/
theorem c9_missing_directive_recoverable (srcListing : List String) (targetFs : FS)
    (number : Nat) (intrC intrE : Nat → Bool) (scan : ScanResult)
    (hs : initScan srcListing = Except.ok scan) :
    mainRun srcListing none targetFs number intrC intrE
      = Except.ok ((compress (copyTimelapses srcListing targetFs) scan.fnames
          number intrC).fs) := by
  unfold mainRun
  rw [hs]
  rfl

theorem c9_missing_directive_recoverable_witness :
    mainRun ["1_day1_a.mp4"] none (fun _ => FileState.absent) 0 (fun _ => false)
        (fun _ => false)
      = Except.ok ((compress
          (copyTimelapses ["1_day1_a.mp4"] (fun _ => FileState.absent))
          (⟨["1_day1_a.mp4"], [1], 1⟩ : ScanResult).fnames 0 (fun _ => false)).fs) :=
  c9_missing_directive_recoverable ["1_day1_a.mp4"] (fun _ => FileState.absent) 0
    (fun _ => false) (fun _ => false) ⟨["1_day1_a.mp4"], [1], 1⟩ rfl

/-- C2 evidence at the failing input.  The claim's first half holds at
this input: an interrupt during job 1's transcoder invocation removes
only that job's partial output, attempts nothing further, and leaves
completed job 0's output intact (third conjunct group).  The claim's
second half is violated by the code: the handler
`if 'new_file' in locals(): os.remove(new_file)` (recproc.py lines
149–150 and 236–237) uses the current binding of `new_file`, and when
the `KeyboardInterrupt` lands inside iteration 1's `try` block before
`new_file` is reassigned — during the bookkeeping of lines 132–136,
resp. the parsing and resolution of lines 198–221 — that binding is
still job 0's output path, so the completed output of job 0 is deleted,
in the compression loop (first group) and in the extraction loop (second
group) alike. -/
theorem c2_stale_handler_evidence :
    ("1_day1_a.mp4" ∈ (compressFull (fun _ => FileState.absent)
        ["1_day1_a.mp4", "2_day1_b.mp4"] 0
        (fun i => if i = 1 then some IntrAt.pre else none)).completed
      ∧ (compressFull (fun _ => FileState.absent)
        ["1_day1_a.mp4", "2_day1_b.mp4"] 0
        (fun i => if i = 1 then some IntrAt.pre else none)).fs "1_day1_a.mp4"
        = FileState.absent
      ∧ (compressFull (fun _ => FileState.absent)
        ["1_day1_a.mp4", "2_day1_b.mp4"] 0
        (fun i => if i = 1 then some IntrAt.pre else none)).interrupted = true)
    ∧ ("clips_1_a.mov" ∈ (extractFull (fun _ => FileState.absent)
        ⟨["1_day1_a.mp4", "2_day1_b.mp4"], [1, 2], 1⟩
        [["1", "00:00:00", "00:00:01", "a"], ["2", "00:00:00", "00:00:01", "b"]] 0
        (fun i => if i = 1 then some IntrAt.pre else none)).completed
      ∧ (extractFull (fun _ => FileState.absent)
        ⟨["1_day1_a.mp4", "2_day1_b.mp4"], [1, 2], 1⟩
        [["1", "00:00:00", "00:00:01", "a"], ["2", "00:00:00", "00:00:01", "b"]] 0
        (fun i => if i = 1 then some IntrAt.pre else none)).fs "clips_1_a.mov"
        = FileState.absent)
    ∧ ((compressFull (fun _ => FileState.absent)
        ["1_day1_a.mp4", "2_day1_b.mp4"] 0
        (fun i => if i = 1 then some IntrAt.inv else none)).fs "1_day1_a.mp4"
        = FileState.complete
      ∧ (compressFull (fun _ => FileState.absent)
        ["1_day1_a.mp4", "2_day1_b.mp4"] 0
        (fun i => if i = 1 then some IntrAt.inv else none)).fs "2_day1_b.mp4"
        = FileState.absent
      ∧ (compressFull (fun _ => FileState.absent)
        ["1_day1_a.mp4", "2_day1_b.mp4"] 0
        (fun i => if i = 1 then some IntrAt.inv else none)).invoked
        = (compressFull (fun _ => FileState.absent)
            ["1_day1_a.mp4", "2_day1_b.mp4"] 0
            (fun i => if i = 1 then some IntrAt.inv else none)).completed
          ++ ["2_day1_b.mp4"]) := by decide
